import Mathlib

/-!
Verification of the videoToRISO reconstruction pipeline.

This file gives a shallow embedding, in Lean 4, of the parts of the
repository that the specification's claims are about:

* `app/reconstruct/metadata.py` — the compact metadata codec
  (`SheetMetadata.to_compact` / `SheetMetadata.from_compact`) and the
  never-throwing decoder entry point (`MetadataDecoder._parse_metadata`);
* `app/reconstruct/grid_detect.py` — the grid data model (`GridCell`,
  `DetectedGrid`), the three resolver strategies and the contour
  refinement pass;
* `app/reconstruct/extractor.py` — the bounds-safe cell cropper
  (`FrameExtractor._extract_cell`);
* `app/reconstruct/assembler.py` — the page aggregator
  (`MultiPageAssembler.validate_continuity`) and the frame-writing loop
  of `VideoAssembler.export`.

Modelling conventions:

* Python `str` values are modelled as `List Char`; all the string
  operations the code uses (`split` with a one-character separator,
  `startswith` with a one-character prefix, slicing `s[1:]`, `join`)
  are defined below with Python's semantics.
* Python `int` is `Int`; `int(q)` applied to a float is truncation
  toward zero (`ratTrunc`); `a // b` is floor division (`Int.fdiv`).
* Python `float` arithmetic is modelled exactly over `ℚ`.  At every
  place a claim is decided the quantities involved are far from the
  rounding boundaries of binary floating point, so the rational model
  and the float execution agree; places where a tie could in principle
  behave differently (half-even rounding in `fmt1`) are noted inline.
* Fallible Python code (code that may raise) returns `Except Unit`;
  a `try/except` wrapper maps `.error` to `none`.
* Calls into OpenCV / numpy (content analysis of the scanned image)
  are modelled as explicit oracle arguments holding the values those
  library calls return; all arithmetic done on those values by the
  repository's own code is embedded faithfully.
-/

/-! ### Python string primitives over `List Char` -/

/-- Python `s.split(sep)` for a one-character separator: splitting the
empty string yields `[[]]`, and separators at the ends yield empty
pieces, exactly as in Python. -/
def splitChar (sep : Char) : List Char → List (List Char)
  | [] => [[]]
  | c :: rest =>
    if c = sep then [] :: splitChar sep rest
    else
      match splitChar sep rest with
      | [] => [[c]]
      | h :: t => (c :: h) :: t

/-- Python `sep.join(parts)` for a one-character separator. -/
def joinParts (sep : Char) : List (List Char) → List Char
  | [] => []
  | [p] => p
  | p :: rest => p ++ sep :: joinParts sep rest

/-- Numeric value of a decimal digit character. -/
def digitVal (c : Char) : Nat := c.toNat - 48

/-- Value of a big-endian string of decimal digits (the value computed
by Python `int` on a digit string). -/
def charsVal (cs : List Char) : Nat :=
  cs.foldl (fun a c => 10 * a + digitVal c) 0

/-- Fuel-driven decimal printer for naturals (structural recursion so
that it reduces inside the kernel). -/
def natToCharsAux (fuel : Nat) (n : Nat) : List Char :=
  match fuel with
  | 0 => []
  | fuel + 1 =>
    if n < 10 then [Nat.digitChar n]
    else natToCharsAux fuel (n / 10) ++ [Nat.digitChar (n % 10)]

/-- Python `str(n)` for a natural number. -/
def natToChars (n : Nat) : List Char := natToCharsAux (n + 1) n

/-- Python `str(i)` for an integer. -/
def intToChars (i : Int) : List Char :=
  if i < 0 then '-' :: natToChars i.natAbs else natToChars i.natAbs

/-- Python `int(s)`.  Accepts an optional sign followed by decimal
digits.  (Python additionally strips surrounding whitespace and allows
underscores between digits; no string handled in this development
contains either, so that leniency is not modelled.) -/
def parseIntE (cs : List Char) : Except Unit Int :=
  if cs.head? = some '-' then
    (parseNatE cs.tail).map (fun n => -(n : Int))
  else if cs.head? = some '+' then
    (parseNatE cs.tail).map (fun n => (n : Int))
  else
    (parseNatE cs).map (fun n => (n : Int))
where
  /-- Digit-string body of `parseIntE`. -/
  parseNatE (cs : List Char) : Except Unit Nat :=
    if cs = [] then .error ()
    else if cs.all Char.isDigit then .ok (charsVal cs)
    else .error ()

/-- Unsigned body of Python `float(s)`: decimal digits with an optional
fractional part (`12`, `12.`, `.5`, `12.5`).  Exponent notation and the
special values `inf` / `nan`, which Python also accepts but which never
occur in this pipeline, are not modelled. -/
def parseUnsignedQParts : List (List Char) → Except Unit ℚ
  | [a] =>
    if a ≠ [] ∧ a.all Char.isDigit then .ok (charsVal a : ℚ) else .error ()
  | [a, b] =>
    if (a ++ b) ≠ [] ∧ a.all Char.isDigit ∧ b.all Char.isDigit then
      .ok ((charsVal a : ℚ) + (charsVal b : ℚ) / 10 ^ b.length)
    else .error ()
  | _ => .error ()

def parseUnsignedQ (cs : List Char) : Except Unit ℚ :=
  parseUnsignedQParts (splitChar '.' cs)

/-- Python `float(s)` (see `parseUnsignedQ` for scope). -/
def parseQE (cs : List Char) : Except Unit ℚ :=
  if cs.head? = some '-' then (parseUnsignedQ cs.tail).map (fun q => -q)
  else if cs.head? = some '+' then parseUnsignedQ cs.tail
  else parseUnsignedQ cs

/-- Round-half-to-even on `ℚ`, the rounding used when Python formats a
float with `:.1f`.  (Python rounds the binary float; on an exact tie of
the rational model the binary value may sit on either side of the tie,
but no claim in this file evaluates `fmt1` at a tie.) -/
def roundHalfEven (q : ℚ) : ℤ :=
  let f : ℤ := ⌊q⌋
  let r : ℚ := q - f
  if r < 1 / 2 then f
  else if 1 / 2 < r then f + 1
  else if 2 ∣ f then f else f + 1

/-- Python `f-string` formatting `{v:.1f}`: the value rounded to one
decimal place, printed with exactly one digit after the point.
(Python prints `-0.0` for tiny negative values; the rational model has
no negative zero, so that string is printed unsigned — the parsed-back
value is `0` either way.) -/
def fmt1 (q : ℚ) : List Char :=
  fmt1OfInt (roundHalfEven (q * 10))
where
  /-- Print a number of tenths as a one-decimal string. -/
  fmt1OfInt (k : ℤ) : List Char :=
    (if k < 0 then ['-'] else []) ++
      natToChars (k.natAbs / 10) ++ '.' :: [Nat.digitChar (k.natAbs % 10)]

/-- Truncation toward zero: Python `int(x)` on a float. -/
def ratTrunc (q : ℚ) : ℤ := if q < 0 then -⌊-q⌋ else ⌊q⌋

/-- Python list lookup `l[i]` for a nonnegative index, raising
`IndexError` when out of range. -/
def listGetE (l : List α) (i : Nat) : Except Unit α :=
  match l.get? i with
  | some a => .ok a
  | none => .error ()

/-- Python tuple unpacking `a, b = s.split(sep)`: raises unless the
split yields exactly two pieces. -/
def split2 (sep : Char) (cs : List Char) : Except Unit (List Char × List Char) :=
  match splitChar sep cs with
  | [a, b] => .ok (a, b)
  | _ => .error ()

/-- Python slicing `l[:k]`, which clamps and counts from the end when
`k` is negative. -/
def pySlice (k : Int) (l : List α) : List α :=
  if 0 ≤ k then l.take k.toNat else l.take ((l.length : Int) + k).toNat

/-- Python `range(n)` as a list of integers. -/
def pyRange (n : Int) : List Int := (List.range n.toNat).map Int.ofNat

/-- Python `range(a, b)` as a list of integers. -/
def pyRange2 (a b : Int) : List Int := (List.range (b - a).toNat).map (fun k => a + k)

/-- Truthiness of a Python `Optional[int]`: `None` and `0` are falsy. -/
def optIntTruthy : Option Int → Bool
  | some n => n ≠ 0
  | none => false

/-- Truthiness of a Python `Optional[float]`: `None` and `0.0` are falsy. -/
def optRatTruthy : Option ℚ → Bool
  | some q => q ≠ 0
  | none => false

/-- `try: ... except: None` around a fallible computation. -/
def exceptToOption : Except Unit α → Option α
  | .ok a => some a
  | .error _ => none

/-! ### `SheetMetadata` and the compact codec (`metadata.py`) -/

/-- `SheetMetadata` (metadata.py, lines 16–33): one page's declared
layout.  `video_hash`, `original_resolution` and `created_at` are never
carried by the compact format. -/
structure SheetMetadata where
  page_number : Int
  total_pages : Int
  rows : Int
  cols : Int
  frame_start : Int
  frame_count : Int
  fps : Option ℚ := none
  cell_width : Option Int := none
  cell_height : Option Int := none
  margin : Option Int := none
  spacing : Option Int := none
  video_hash : Option (List Char) := none
  original_resolution : Option (Int × Int) := none
  created_at : Option (List Char) := none
deriving DecidableEq, Repr

/-- `SheetMetadata.to_compact` (metadata.py, lines 46–64): build the
parts `p…/…`, `g…x…`, `f…+…`, then conditionally `c…x…` (only when both
cell dimensions are truthy), `m…s…` (only when margin and spacing are
both non-`None`) and `@…` (only when fps is truthy), joined with `|`. -/
def SheetMetadata.to_compact (m : SheetMetadata) : List Char :=
  let parts : List (List Char) :=
    ['p' :: (intToChars m.page_number ++ '/' :: intToChars m.total_pages),
     'g' :: (intToChars m.rows ++ 'x' :: intToChars m.cols),
     'f' :: (intToChars m.frame_start ++ '+' :: intToChars m.frame_count)]
  let parts :=
    if optIntTruthy m.cell_width ∧ optIntTruthy m.cell_height then
      parts ++ ['c' :: (intToChars (m.cell_width.getD 0) ++ 'x' :: intToChars (m.cell_height.getD 0))]
    else parts
  let parts :=
    if m.margin.isSome ∧ m.spacing.isSome then
      parts ++ ['m' :: (intToChars (m.margin.getD 0) ++ 's' :: intToChars (m.spacing.getD 0))]
    else parts
  let parts :=
    if optRatTruthy m.fps then parts ++ ['@' :: fmt1 (m.fps.getD 0)]
    else parts
  joinParts '|' parts

/-- State carried by the optional-part loop of `from_compact`:
fps, cell_width, cell_height, margin, spacing. -/
abbrev CompactOptState :=
  Option ℚ × Option Int × Option Int × Option Int × Option Int

/-- The `for part in parts[3:]` loop of `from_compact` (metadata.py,
lines 90–104): `@…` sets fps, `c…` splits on `x` into the two cell
dimensions, `m…` splits on `s` into margin and spacing; any other part
is ignored.  Each arm may raise (modelled in `Except`). -/
def parseOptParts : List (List Char) → CompactOptState → Except Unit CompactOptState
  | [], acc => .ok acc
  | part :: rest, (fps, cw, ch, mg, sp) =>
    if part.head? = some '@' then do
      let q ← parseQE part.tail
      parseOptParts rest (some q, cw, ch, mg, sp)
    else if part.head? = some 'c' then do
      let d0 ← listGetE (splitChar 'x' part.tail) 0
      let d1 ← listGetE (splitChar 'x' part.tail) 1
      let w ← parseIntE d0
      let h ← parseIntE d1
      parseOptParts rest (fps, some w, some h, mg, sp)
    else if part.head? = some 'm' then do
      let m0 ← listGetE (splitChar 's' part.tail) 0
      let m1 ← listGetE (splitChar 's' part.tail) 1
      let mv ← parseIntE m0
      let sv ← parseIntE m1
      parseOptParts rest (fps, cw, ch, some mv, some sv)
    else
      parseOptParts rest (fps, cw, ch, mg, sp)

/-- Body of `from_compact` after the initial `compact_str.split("|")`
(metadata.py, lines 69–118), acting on the list of parts.  Any Python
exception (unpack mismatch, missing part, failed `int`/`float`) is an
`Except.error`. -/
def fromCompactParts (parts : List (List Char)) : Except Unit SheetMetadata := do
  let pagePart ← listGetE parts 0
  let gridPart ← listGetE parts 1
  let framePart ← listGetE parts 2
  let (pnS, tpS) ← split2 '/' (pagePart.drop 1)
  let (rS, cS) ← split2 'x' (gridPart.drop 1)
  let (fsS, fcS) ← split2 '+' (framePart.drop 1)
  let opts ← parseOptParts (parts.drop 3) (none, none, none, none, none)
  let pn ← parseIntE pnS
  let tp ← parseIntE tpS
  let r ← parseIntE rS
  let c ← parseIntE cS
  let fs ← parseIntE fsS
  let fc ← parseIntE fcS
  pure
    { page_number := pn
      total_pages := tp
      rows := r
      cols := c
      frame_start := fs
      frame_count := fc
      fps := opts.1
      cell_width := opts.2.1
      cell_height := opts.2.2.1
      margin := opts.2.2.2.1
      spacing := opts.2.2.2.2 }

/-- `SheetMetadata.from_compact` (metadata.py, lines 66–118): split the
compact string on `|` and parse the parts. -/
def SheetMetadata.from_compact (cs : List Char) : Except Unit SheetMetadata :=
  fromCompactParts (splitChar '|' cs)

/-- The left brace character (written via its code point to keep it out
of the source text). -/
def openBraceChar : Char := Char.ofNat 123

/-- `MetadataDecoder._parse_metadata` (metadata.py, lines 465–487):
inside a `try/except` that returns `None` on any exception, dispatch on
the shape of the decoded QR payload — `p…` with a `|` goes to the
compact parser, `{…` goes to the JSON parser, anything else is `None`.
The JSON parser is abstracted as an arbitrary fallible function
`from_json`, so the theorems below hold for every behaviour of it. -/
def parse_metadata (from_json : List Char → Except Unit SheetMetadata)
    (data : List Char) : Option SheetMetadata :=
  if data.head? = some 'p' ∧ data.contains '|' then
    exceptToOption (SheetMetadata.from_compact data)
  else if data.head? = some openBraceChar then
    exceptToOption (from_json data)
  else
    none

/-- The three mandatory parts of the compact format. -/
def compactMandatory (m : SheetMetadata) : List (List Char) :=
  ['p' :: (intToChars m.page_number ++ '/' :: intToChars m.total_pages),
   'g' :: (intToChars m.rows ++ 'x' :: intToChars m.cols),
   'f' :: (intToChars m.frame_start ++ '+' :: intToChars m.frame_count)]

/-- The optional parts of the compact format, in the order `to_compact`
emits them. -/
def compactOptParts (m : SheetMetadata) : List (List Char) :=
  (if optIntTruthy m.cell_width ∧ optIntTruthy m.cell_height then
    ['c' :: (intToChars (m.cell_width.getD 0) ++ 'x' :: intToChars (m.cell_height.getD 0))]
  else []) ++
  (if m.margin.isSome ∧ m.spacing.isSome then
    ['m' :: (intToChars (m.margin.getD 0) ++ 's' :: intToChars (m.spacing.getD 0))]
  else []) ++
  (if optRatTruthy m.fps then ['@' :: fmt1 (m.fps.getD 0)] else [])

/-- The optional-field normalisation performed by one compact
encode/decode round trip: cell dimensions survive only when both are
set and nonzero, margin/spacing only when both are set, fps is rounded
to one decimal and survives only when nonzero; the three fields the
compact format cannot carry are cleared. -/
def roundTripNormalize (m : SheetMetadata) : SheetMetadata :=
  { page_number := m.page_number
    total_pages := m.total_pages
    rows := m.rows
    cols := m.cols
    frame_start := m.frame_start
    frame_count := m.frame_count
    fps :=
      if optRatTruthy m.fps then
        some ((roundHalfEven (m.fps.getD 0 * 10) : ℚ) / 10)
      else none
    cell_width :=
      if optIntTruthy m.cell_width ∧ optIntTruthy m.cell_height then m.cell_width else none
    cell_height :=
      if optIntTruthy m.cell_width ∧ optIntTruthy m.cell_height then m.cell_height else none
    margin :=
      if m.margin.isSome ∧ m.spacing.isSome then m.margin else none
    spacing :=
      if m.margin.isSome ∧ m.spacing.isSome then m.spacing else none
    video_hash := none
    original_resolution := none
    created_at := none }

/-! ### Grid data model and resolver strategies (`grid_detect.py`) -/

/-- `GridCell` (grid_detect.py, lines 16–34). -/
structure GridCell where
  x : Int
  y : Int
  width : Int
  height : Int
  row : Int
  col : Int
deriving DecidableEq, Repr

/-- `GridCell.bounds`: `(left, top, right, bottom)`. -/
def GridCell.bounds (c : GridCell) : Int × Int × Int × Int :=
  (c.x, c.y, c.x + c.width, c.y + c.height)

/-- `DetectedGrid` (grid_detect.py, lines 37–49). -/
structure DetectedGrid where
  cells : List GridCell
  rows : Int
  cols : Int
  cell_width : Int
  cell_height : Int
  origin : Int × Int
  spacing_x : Int
  spacing_y : Int
  frame_count : Option Int := none
deriving DecidableEq, Repr

/-- The sort key order of `get_cells_in_order`: Python tuple comparison
on `(c.row, c.col)`. -/
def cellLE (a b : GridCell) : Prop :=
  a.row < b.row ∨ (a.row = b.row ∧ a.col ≤ b.col)

instance : DecidableRel cellLE := fun a b =>
  inferInstanceAs (Decidable (a.row < b.row ∨ (a.row = b.row ∧ a.col ≤ b.col)))

instance : IsTotal GridCell cellLE :=
  ⟨fun a b => by unfold cellLE; omega⟩

instance : IsTrans GridCell cellLE :=
  ⟨fun a b c hab hbc => by unfold cellLE at *; omega⟩

/-- Strict reading order on cells: row strictly first, then column. -/
def cellLT (a b : GridCell) : Prop :=
  a.row < b.row ∨ (a.row = b.row ∧ a.col < b.col)

/-- `DetectedGrid.get_cells_in_order` (grid_detect.py, lines 58–64):
sort the cells by `(row, col)` and, when `frame_count` is set, keep
only the first `frame_count` of them (`ordered[:frame_count]`, with
Python's slicing semantics).  Python's `sorted` is stable, and
insertion sort on the reflexive key order is the same stable sort. -/
def DetectedGrid.get_cells_in_order (g : DetectedGrid) : List GridCell :=
  match g.frame_count with
  | some fc => pySlice fc (List.insertionSort cellLE g.cells)
  | none => List.insertionSort cellLE g.cells

/-- A contour as the pipeline sees it: the `(x, y, w, h)` bounding
rectangle that `cv2.boundingRect` returns for it. -/
abbrev Contour := Int × Int × Int × Int

/-- Per-cell body of the loop in `refine_grid_with_contours`
(grid_detect.py, lines 323–372): search a ±20 % padded window around
the predicted cell for the contour of comparable area with the largest
overlap, and replace the cell's rectangle with its bounding box when
one is found.  The float products `cell.width * 0.2` and the area
bounds `0.5·area < a < 1.5·area` are modelled exactly over `ℚ`; at
these magnitudes binary-float evaluation agrees with the exact value. -/
def GridDetector.applyBest (cell : GridCell) : Option Contour → GridCell
  | some (bx, by_, bw, bh) =>
    { x := bx, y := by_, width := bw, height := bh, row := cell.row, col := cell.col }
  | none => cell

/-- The per-cell loop body itself (see `GridDetector.applyBest` for the
final `if best_contour:` dispatch). -/
def GridDetector.refineCell (contours : List Contour) (cell : GridCell) : GridCell :=
  let pad_x := ratTrunc ((cell.width : ℚ) * (2 / 10))
  let pad_y := ratTrunc ((cell.height : ℚ) * (2 / 10))
  let search_x := max 0 (cell.x - pad_x)
  let search_y := max 0 (cell.y - pad_y)
  let search_w := cell.width + 2 * pad_x
  let search_h := cell.height + 2 * pad_y
  let cell_area := cell.width * cell.height
  let best := contours.foldl
    (fun (best : Option Contour × Int) (cnt : Contour) =>
      let x := cnt.1
      let y := cnt.2.1
      let w := cnt.2.2.1
      let h := cnt.2.2.2
      let cx := x + Int.fdiv w 2
      let cy := y + Int.fdiv h 2
      if cx ≥ search_x ∧ cy ≥ search_y ∧
          cx ≤ search_x + search_w ∧ cy ≤ search_y + search_h then
        let area := w * h
        if ((1 : ℚ) / 2) * (cell_area : ℚ) < (area : ℚ) ∧
            (area : ℚ) < ((3 : ℚ) / 2) * (cell_area : ℚ) then
          let overlap_x := max 0 (min (cell.x + cell.width) (x + w) - max cell.x x)
          let overlap_y := max 0 (min (cell.y + cell.height) (y + h) - max cell.y y)
          let overlap_area := overlap_x * overlap_y
          if overlap_area > best.2 then (some cnt, overlap_area) else best
        else best
      else best)
    (none, 0)
  GridDetector.applyBest cell best.1

/-- `GridDetector.refine_grid_with_contours` (grid_detect.py, lines
299–388).  The OpenCV preprocessing that produces the contour list is
abstracted as an `Except`-valued oracle: `.error` stands for any
exception raised by the underlying image operations (in which case the
`except` clause returns the input grid unchanged — a mid-loop failure
in Python likewise aborts before the new grid is built), `.ok` carries
the bounding rectangles of the detected external contours. -/
def GridDetector.refine_grid_with_contours (contoursE : Except Unit (List Contour))
    (grid : DetectedGrid) : DetectedGrid :=
  match contoursE with
  | .error _ => grid
  | .ok contours =>
    { cells := grid.cells.map (GridDetector.refineCell contours)
      rows := grid.rows
      cols := grid.cols
      cell_width := grid.cell_width
      cell_height := grid.cell_height
      origin := grid.origin
      spacing_x := grid.spacing_x
      spacing_y := grid.spacing_y
      frame_count := grid.frame_count }

/-- The `scale_x / scale_y` reconciliation of `detect_from_exact_layout`
(grid_detect.py, lines 252–256): average the two scale factors exactly
when their absolute difference is below 0.1, else keep both. -/
def scalePair (sx sy : ℚ) : ℚ × ℚ :=
  if |sx - sy| < 1 / 10 then ((sx + sy) / 2, (sx + sy) / 2) else (sx, sy)

/-- `GridDetector.detect_from_exact_layout` (grid_detect.py, lines
211–297): reconstruct the original page size from the layout hints,
scale every layout value by the image/original ratio (averaging nearly
equal scales), lay out the uniform grid, then refine.  The divisions
computing `scale_x`/`scale_y` raise `ZeroDivisionError` in Python when
a reconstructed original dimension is zero; theorems about this
function therefore assume those dimensions are nonzero. -/
def GridDetector.detect_from_exact_layout (contoursE : Except Unit (List Contour))
    (img_width img_height : Int) (rows cols : Int) (frame_count : Option Int)
    (cell_width cell_height margin spacing : Int) : DetectedGrid :=
  let original_width := margin * 2 + cols * cell_width + (cols - 1) * spacing
  let original_height := margin * 2 + rows * cell_height + (rows - 1) * spacing
  let scales := scalePair ((img_width : ℚ) / (original_width : ℚ))
    ((img_height : ℚ) / (original_height : ℚ))
  let scaled_margin_x := ratTrunc ((margin : ℚ) * scales.1)
  let scaled_margin_y := ratTrunc ((margin : ℚ) * scales.2)
  let scaled_cell_width := ratTrunc ((cell_width : ℚ) * scales.1)
  let scaled_cell_height := ratTrunc ((cell_height : ℚ) * scales.2)
  let scaled_spacing_x := ratTrunc ((spacing : ℚ) * scales.1)
  let scaled_spacing_y := ratTrunc ((spacing : ℚ) * scales.2)
  let cells := (pyRange rows).flatMap (fun row =>
    (pyRange cols).map (fun col =>
      { x := scaled_margin_x + col * (scaled_cell_width + scaled_spacing_x)
        y := scaled_margin_y + row * (scaled_cell_height + scaled_spacing_y)
        width := scaled_cell_width
        height := scaled_cell_height
        row := row
        col := col }))
  GridDetector.refine_grid_with_contours contoursE
    { cells := cells
      rows := rows
      cols := cols
      cell_width := scaled_cell_width
      cell_height := scaled_cell_height
      origin := (scaled_margin_x, scaled_margin_y)
      spacing_x := scaled_spacing_x
      spacing_y := scaled_spacing_y
      frame_count := frame_count }

/-- `GridDetector.detect_from_metadata` (grid_detect.py, lines
135–209), the percentage-estimate strategy.  The result of
`_detect_content_bounds` (an OpenCV content scan) is an oracle
argument; the margins, spacing and cell sizes computed from it are
embedded faithfully.  Python's `//` (used for the cell sizes) raises on
`cols = 0` / `rows = 0`; theorems assume they are nonzero. -/
def GridDetector.detect_from_metadata (contoursE : Except Unit (List Contour))
    (content_bounds : Option (Int × Int × Int × Int))
    (img_width img_height : Int) (rows cols : Int) (frame_count : Option Int)
    (margin_percent spacing_percent : ℚ) : DetectedGrid :=
  let margin_x := ratTrunc ((img_width : ℚ) * margin_percent)
  let margin_y := ratTrunc ((img_height : ℚ) * margin_percent)
  let mxy :=
    match content_bounds with
    | some (l, t, r, b) => (l, t, r - l, b - t)
    | none => (margin_x, margin_y, img_width - 2 * margin_x, img_height - 2 * margin_y)
  let margin_x := mxy.1
  let margin_y := mxy.2.1
  let content_width := mxy.2.2.1
  let content_height := mxy.2.2.2
  let spacing_x := ratTrunc ((img_width : ℚ) * spacing_percent)
  let spacing_y := ratTrunc ((img_height : ℚ) * spacing_percent)
  let cell_width := Int.fdiv (content_width - spacing_x * (cols - 1)) cols
  let cell_height := Int.fdiv (content_height - spacing_y * (rows - 1)) rows
  let cells := (pyRange rows).flatMap (fun row =>
    (pyRange cols).map (fun col =>
      { x := margin_x + col * (cell_width + spacing_x)
        y := margin_y + row * (cell_height + spacing_y)
        width := cell_width
        height := cell_height
        row := row
        col := col }))
  GridDetector.refine_grid_with_contours contoursE
    { cells := cells
      rows := rows
      cols := cols
      cell_width := cell_width
      cell_height := cell_height
      origin := (margin_x, margin_y)
      spacing_x := spacing_x
      spacing_y := spacing_y
      frame_count := frame_count }

/-- The OpenCV-derived inputs of `detect_by_content`: the dominant grid
region (`_find_grid_region`), the fallback content bounds
(`_detect_content_bounds`), and the projection-profile analysis result
`(rows, cols, cell_h, cell_w)` (`_analyze_projection_profiles`).  All
three are computed by image analysis on the scan and enter the
embedding as data; the arithmetic `detect_by_content` performs on them
is embedded faithfully.  The bounds delivered by the two scanners are
clamped to the image, as their Python implementations guarantee. -/
structure ContentOracle where
  grid_bounds : Option (Int × Int × Int × Int)
  content_bounds : Option (Int × Int × Int × Int)
  projection : Int × Int × Int × Int

/-- `GridDetector.detect_by_content` (grid_detect.py, lines 434–511),
the content-only strategy: pick the content region, read the grid
shape off the projection profiles, fall back to a 6×5 grid when the
profiles find nothing, and build the cells.  No `frame_count` is ever
set on the resulting grid, and no refinement pass runs. -/
def GridDetector.detect_by_content (o : ContentOracle)
    (img_width img_height : Int) : DetectedGrid :=
  let region :=
    match o.grid_bounds with
    | some (l, t, r, b) => (l, t, b - t, r - l)
    | none =>
      match o.content_bounds with
      | some (l, t, r, b) => (l, t, b - t, r - l)
      | none => (0, 0, img_height, img_width)
  let left := region.1
  let top := region.2.1
  let shape_h := region.2.2.1
  let shape_w := region.2.2.2
  let proj :=
    if o.projection.1 = 0 ∨ o.projection.2.1 = 0 then
      (6, 5, Int.fdiv shape_h 6, Int.fdiv shape_w 5)
    else o.projection
  let rows := proj.1
  let cols := proj.2.1
  let cell_h := proj.2.2.1
  let cell_w := proj.2.2.2
  let cells := (pyRange rows).flatMap (fun row =>
    (pyRange cols).map (fun col =>
      { x := left + col * cell_w
        y := top + row * cell_h
        width := cell_w
        height := cell_h
        row := row
        col := col }))
  { cells := cells
    rows := rows
    cols := cols
    cell_width := cell_w
    cell_height := cell_h
    origin := (left, top)
    spacing_x := 0
    spacing_y := 0
    frame_count := none }

/-- `GridDetector.detect` (grid_detect.py, lines 88–133): dispatch to
the exact-layout strategy when manual hints include truthy cell
dimensions and non-`None` margin and spacing, to the percentage
strategy when only rows/cols hints are truthy, and to content analysis
otherwise. -/
def GridDetector.detect (contoursE : Except Unit (List Contour))
    (content_bounds : Option (Int × Int × Int × Int)) (contentO : ContentOracle)
    (img_width img_height : Int) (method : String)
    (rows cols : Option Int) (frame_count : Option Int)
    (cell_width cell_height margin spacing : Option Int)
    (margin_percent spacing_percent : ℚ) : DetectedGrid :=
  if method = "manual" ∧ optIntTruthy rows ∧ optIntTruthy cols then
    if optIntTruthy cell_width ∧ optIntTruthy cell_height ∧
        margin.isSome ∧ spacing.isSome then
      GridDetector.detect_from_exact_layout contoursE img_width img_height
        (rows.getD 0) (cols.getD 0) frame_count
        (cell_width.getD 0) (cell_height.getD 0) (margin.getD 0) (spacing.getD 0)
    else
      GridDetector.detect_from_metadata contoursE content_bounds img_width img_height
        (rows.getD 0) (cols.getD 0) frame_count margin_percent spacing_percent
  else
    GridDetector.detect_by_content contentO img_width img_height

/-- All `(row, col)` pairs of a `rows × cols` grid in reading order. -/
def allPairs (rows cols : Int) : List (Int × Int) :=
  (pyRange rows).flatMap (fun r => (pyRange cols).map (fun c => (r, c)))

/-! ### Frame extraction (`extractor.py`) -/

/-- Outcome of `_extract_cell`: either the fixed 10×10 neutral-gray
placeholder `Image.new("RGB", (10, 10), (128, 128, 128))`, or the crop
of the source at the given `(left, top, right, bottom)` box. -/
inductive ExtractResult
  | placeholder
  | crop (left top right bottom : Int)
deriving DecidableEq, Repr

/-- `FrameExtractor._extract_cell` (extractor.py, lines 92–131): inset
by the border crop when positive, clamp to the image, repair degenerate
spans to one pixel, and fall back to the placeholder when the region
starts at or beyond the right or bottom edge. -/
def FrameExtractor.extract_cell (border_crop : Int) (img_width img_height : Int)
    (cell : GridCell) : ExtractResult :=
  let b0 := cell.bounds
  let b1 :=
    if border_crop > 0 then
      (b0.1 + border_crop, b0.2.1 + border_crop, b0.2.2.1 - border_crop,
        b0.2.2.2 - border_crop)
    else b0
  let l := max 0 b1.1
  let t := max 0 b1.2.1
  let r := min img_width b1.2.2.1
  let b := min img_height b1.2.2.2
  let r := if r ≤ l then l + 1 else r
  let b := if b ≤ t then t + 1 else b
  if l ≥ img_width ∨ t ≥ img_height then .placeholder
  else .crop l t r b

/-! ### Assembly (`assembler.py`) -/

/-- `VideoSettings` (assembler.py, lines 16–24). -/
structure VideoSettings where
  fps : ℚ := 24
  codec : List Char := "mp4v".toList
  quality : Int := 95
  frame_duration : Option ℚ := none
  resolution : Option (Int × Int) := none
  maintain_aspect : Bool := true
deriving DecidableEq, Repr

/-- `MultiPageAssembler` (assembler.py, lines 27–34): pages keyed by
page number.  The dict is modelled as an association list with the
keys unique; frames are abstract tokens. -/
structure MultiPageAssembler where
  pages : List (Int × List Nat) := []
deriving DecidableEq, Repr

/-- `MultiPageAssembler.validate_continuity` (assembler.py, lines
70–84): an empty page set is continuous; otherwise the sorted page
numbers must form an unbroken run from their minimum to their maximum,
and the gaps are reported. -/
def MultiPageAssembler.validate_continuity (a : MultiPageAssembler) : Bool × List Int :=
  match a.pages with
  | [] => (true, [])
  | _ =>
    let page_nums := List.insertionSort (· ≤ ·) (a.pages.map Prod.fst)
    let expected := pyRange2 (page_nums.head?.getD 0) (page_nums.getLast?.getD 0 + 1)
    let missing := expected.filter (fun p => !(page_nums.contains p))
    (missing.length == 0, missing)

/-- The resolution of `fps = fps or self.settings.fps` (assembler.py,
line 191): an explicit truthy argument wins, else the settings value. -/
def VideoAssembler.resolveFps (fpsArg : Option ℚ) (settings : VideoSettings) : ℚ :=
  match fpsArg with
  | some f => if f ≠ 0 then f else settings.fps
  | none => settings.fps

/-- The writer frame rate chosen by `export` (assembler.py, lines
204–208): `1 / frame_duration` when a truthy frame duration is set,
else the resolved fps. -/
def VideoAssembler.effectiveFps (settings : VideoSettings) (fps : ℚ) : ℚ :=
  if optRatTruthy settings.frame_duration then 1 / settings.frame_duration.getD 0
  else fps

/-- The frame-writing loop of `VideoAssembler.export` (assembler.py,
lines 219–236), recording the sequence of `writer.write` calls: with a
truthy frame duration and truthy fps each frame is written
`max(1, int(fps * frame_duration))` times, otherwise once.  Resizing
and colour conversion do not change which frame is written and are not
modelled. -/
def VideoAssembler.exportWrites {α : Type} (settings : VideoSettings)
    (fpsArg : Option ℚ) (frames : List α) : List α :=
  let fps := VideoAssembler.resolveFps fpsArg settings
  frames.foldl
    (fun acc frame =>
      if optRatTruthy settings.frame_duration ∧ fps ≠ 0 then
        acc ++ List.replicate
          (max 1 (ratTrunc (fps * settings.frame_duration.getD 0))).toNat frame
      else acc ++ [frame])
    []

/-! ### Lemmas: splitting and joining -/

theorem splitChar_of_not_mem (sep : Char) (a : List Char) (h : sep ∉ a) :
    splitChar sep a = [a] := by
  induction a with
  | nil => rfl
  | cons c rest ih =>
    have h1 : ¬ c = sep := fun e => h (by simp [e])
    have h2 : sep ∉ rest := fun e => h (List.mem_cons_of_mem _ e)
    unfold splitChar
    rw [if_neg h1, ih h2]

theorem splitChar_append (sep : Char) (a b : List Char) (h : sep ∉ a) :
    splitChar sep (a ++ sep :: b) = a :: splitChar sep b := by
  induction a with
  | nil => simp [splitChar]
  | cons c rest ih =>
    have h1 : ¬ c = sep := fun e => h (by simp [e])
    have h2 : sep ∉ rest := fun e => h (List.mem_cons_of_mem _ e)
    show splitChar sep (c :: (rest ++ sep :: b)) = (c :: rest) :: splitChar sep b
    rw [splitChar, if_neg h1, ih h2]

theorem splitChar_joinParts (sep : Char) (parts : List (List Char))
    (hne : parts ≠ []) (h : ∀ p ∈ parts, sep ∉ p) :
    splitChar sep (joinParts sep parts) = parts := by
  induction parts with
  | nil => exact absurd rfl hne
  | cons p rest ih =>
    cases rest with
    | nil =>
      simpa [joinParts] using splitChar_of_not_mem sep p (h p (by simp))
    | cons q t =>
      have hp : sep ∉ p := h p (by simp)
      have hrest : ∀ r ∈ q :: t, sep ∉ r := fun r hr => h r (by simp [hr])
      simp only [joinParts]
      rw [splitChar_append sep p _ hp, ih (by simp) hrest]

theorem split2_append (sep : Char) (a b : List Char) (ha : sep ∉ a) (hb : sep ∉ b) :
    split2 sep (a ++ sep :: b) = .ok (a, b) := by
  unfold split2
  rw [splitChar_append sep a b ha]
  rw [splitChar_of_not_mem sep b hb]

/-! ### Lemmas: decimal printing and parsing round trips -/

theorem digitVal_digitChar (n : Nat) (h : n < 10) : digitVal (Nat.digitChar n) = n := by
  interval_cases n <;> rfl

theorem isDigit_digitChar (n : Nat) (h : n < 10) : (Nat.digitChar n).isDigit = true := by
  interval_cases n <;> rfl

theorem charsVal_append_single (a : List Char) (c : Char) :
    charsVal (a ++ [c]) = 10 * charsVal a + digitVal c := by
  simp [charsVal, List.foldl_append]

theorem charsVal_singleton (c : Char) : charsVal [c] = digitVal c := by
  simp [charsVal]

theorem natToCharsAux_spec (fuel : Nat) :
    ∀ n, n < 10 ^ (fuel + 1) →
      charsVal (natToCharsAux (fuel + 1) n) = n ∧ natToCharsAux (fuel + 1) n ≠ [] ∧
        ∀ c ∈ natToCharsAux (fuel + 1) n, c.isDigit = true := by
  induction fuel with
  | zero =>
    intro n hn
    have h10 : n < 10 := by simpa using hn
    unfold natToCharsAux
    rw [if_pos h10]
    refine ⟨?_, by simp, ?_⟩
    · rw [charsVal_singleton, digitVal_digitChar n h10]
    · intro c hc
      simp only [List.mem_singleton] at hc
      rw [hc]
      exact isDigit_digitChar n h10
  | succ fuel ih =>
    intro n hn
    by_cases h10 : n < 10
    · unfold natToCharsAux
      rw [if_pos h10]
      refine ⟨?_, by simp, ?_⟩
      · rw [charsVal_singleton, digitVal_digitChar n h10]
      · intro c hc
        simp only [List.mem_singleton] at hc
        rw [hc]
        exact isDigit_digitChar n h10
    · have hdiv : n / 10 < 10 ^ (fuel + 1) := by
        rw [Nat.div_lt_iff_lt_mul (by norm_num)]
        calc n < 10 ^ (fuel + 2) := hn
        _ = 10 ^ (fuel + 1) * 10 := by ring
      obtain ⟨hval, hne, hdig⟩ := ih (n / 10) hdiv
      have hstep : natToCharsAux (fuel + 2) n =
          natToCharsAux (fuel + 1) (n / 10) ++ [Nat.digitChar (n % 10)] := by
        conv_lhs => unfold natToCharsAux
        rw [if_neg h10]
      rw [hstep]
      refine ⟨?_, by simp, ?_⟩
      · rw [charsVal_append_single, hval, digitVal_digitChar _ (Nat.mod_lt n (by norm_num))]
        omega
      · intro c hc
        rcases List.mem_append.mp hc with hc | hc
        · exact hdig c hc
        · simp only [List.mem_singleton] at hc
          rw [hc]
          exact isDigit_digitChar _ (Nat.mod_lt n (by norm_num))

theorem natToChars_spec (n : Nat) :
    charsVal (natToChars n) = n ∧ natToChars n ≠ [] ∧
      ∀ c ∈ natToChars n, c.isDigit = true := by
  have h1 : n < 10 ^ n := Nat.lt_pow_self (by norm_num) n
  have h2 : (10 : Nat) ^ n ≤ 10 ^ (n + 1) := Nat.pow_le_pow_right (by norm_num) (Nat.le_succ n)
  exact natToCharsAux_spec n n (lt_of_lt_of_le h1 h2)

theorem charsVal_natToChars (n : Nat) : charsVal (natToChars n) = n :=
  (natToChars_spec n).1

theorem natToChars_ne_nil (n : Nat) : natToChars n ≠ [] :=
  (natToChars_spec n).2.1

theorem mem_natToChars_isDigit (n : Nat) (c : Char) (hc : c ∈ natToChars n) :
    c.isDigit = true :=
  (natToChars_spec n).2.2 c hc

theorem not_mem_natToChars (n : Nat) (c : Char) (hc : c.isDigit = false) :
    c ∉ natToChars n := by
  intro hmem
  have := mem_natToChars_isDigit n c hmem
  rw [hc] at this
  exact Bool.false_ne_true this

theorem mem_intToChars (i : Int) (c : Char) (hc : c ∈ intToChars i) :
    c.isDigit = true ∨ c = '-' := by
  unfold intToChars at hc
  by_cases h : i < 0
  · rw [if_pos h] at hc
    rcases List.mem_cons.mp hc with hc | hc
    · exact Or.inr hc
    · exact Or.inl (mem_natToChars_isDigit _ c hc)
  · rw [if_neg h] at hc
    exact Or.inl (mem_natToChars_isDigit _ c hc)

theorem not_mem_intToChars (i : Int) (c : Char) (h1 : c.isDigit = false) (h2 : c ≠ '-') :
    c ∉ intToChars i := by
  intro hmem
  rcases mem_intToChars i c hmem with h | h
  · rw [h1] at h
    exact Bool.false_ne_true h
  · exact h2 h

theorem parseNatE_natToChars (n : Nat) : parseIntE.parseNatE (natToChars n) = .ok n := by
  unfold parseIntE.parseNatE
  rw [if_neg (natToChars_ne_nil n)]
  rw [if_pos (List.all_eq_true.mpr fun c hc => mem_natToChars_isDigit n c hc)]
  rw [charsVal_natToChars]

theorem head?_natToChars_not_sign (n : Nat) (c : Char) (hc : c.isDigit = false) :
    (natToChars n).head? ≠ some c := by
  intro h
  rcases hhd : natToChars n with _ | ⟨d, t⟩
  · exact natToChars_ne_nil n hhd
  · rw [hhd] at h
    simp only [List.head?_cons, Option.some.injEq] at h
    have := mem_natToChars_isDigit n d (by rw [hhd]; simp)
    rw [h, hc] at this
    exact Bool.false_ne_true this

theorem parseIntE_natToChars (n : Nat) : parseIntE (natToChars n) = .ok (n : Int) := by
  unfold parseIntE
  rw [if_neg (head?_natToChars_not_sign n '-' rfl)]
  rw [if_neg (head?_natToChars_not_sign n '+' rfl)]
  rw [parseNatE_natToChars]
  rfl

theorem parseIntE_neg_natToChars (n : Nat) :
    parseIntE ('-' :: natToChars n) = .ok (-(n : Int)) := by
  unfold parseIntE
  rw [if_pos (by simp)]
  simp only [List.tail_cons]
  rw [parseNatE_natToChars]
  rfl

theorem parseIntE_intToChars (i : Int) : parseIntE (intToChars i) = .ok i := by
  by_cases h : i < 0
  · rw [intToChars, if_pos h, parseIntE_neg_natToChars]
    simp only [Except.ok.injEq]
    omega
  · rw [intToChars, if_neg h, parseIntE_natToChars]
    simp only [Except.ok.injEq]
    omega

/-! ### Lemmas: float formatting round trip -/

theorem head?_natToChars_append_ne (n : Nat) (rest : List Char) (c : Char)
    (hc : c.isDigit = false) : (natToChars n ++ rest).head? ≠ some c := by
  rcases hhd : natToChars n with _ | ⟨d, t⟩
  · exact absurd hhd (natToChars_ne_nil n)
  · intro h
    simp only [hhd, List.cons_append, List.head?_cons, Option.some.injEq] at h
    have := mem_natToChars_isDigit n d (by rw [hhd]; simp)
    rw [h, hc] at this
    exact Bool.false_ne_true this

theorem parseUnsignedQ_dec (a d : Nat) (hd : d < 10) :
    parseUnsignedQ (natToChars a ++ '.' :: [Nat.digitChar d]) =
      .ok ((a : ℚ) + (d : ℚ) / 10) := by
  have hsplit : splitChar '.' (natToChars a ++ '.' :: [Nat.digitChar d]) =
      [natToChars a, [Nat.digitChar d]] := by
    rw [splitChar_append _ _ _ (not_mem_natToChars a '.' rfl)]
    rw [splitChar_of_not_mem]
    intro hm
    simp only [List.mem_singleton] at hm
    have := isDigit_digitChar d hd
    rw [← hm] at this
    exact Bool.false_ne_true this
  unfold parseUnsignedQ
  rw [hsplit]
  rw [parseUnsignedQParts]
  rw [if_pos]
  · rw [charsVal_natToChars, charsVal_singleton, digitVal_digitChar d hd]
    norm_num
  · refine ⟨by simp [natToChars_ne_nil a], ?_, ?_⟩
    · exact List.all_eq_true.mpr fun c hc => mem_natToChars_isDigit a c hc
    · simp [isDigit_digitChar d hd]

theorem natCast_div_ten (a : Nat) :
    ((a / 10 : ℕ) : ℚ) + ((a % 10 : ℕ) : ℚ) / 10 = (a : ℚ) / 10 := by
  field_simp
  exact_mod_cast by omega

theorem parseQE_fmt1OfInt (k : ℤ) :
    parseQE (fmt1.fmt1OfInt k) = .ok ((k : ℚ) / 10) := by
  unfold fmt1.fmt1OfInt parseQE
  by_cases hk : k < 0
  · rw [if_pos hk]
    simp only [List.cons_append, List.singleton_append, List.head?_cons, List.tail_cons,
      List.nil_append]
    rw [if_pos trivial]
    rw [parseUnsignedQ_dec _ _ (Nat.mod_lt _ (by norm_num))]
    simp only [Except.map]
    congr 1
    rw [natCast_div_ten k.natAbs]
    have h2 : ((k.natAbs : ℕ) : ℚ) = -((k : ℤ) : ℚ) := by
      have h3 : ((k.natAbs : ℕ) : ℤ) = -k := by omega
      calc ((k.natAbs : ℕ) : ℚ) = (((k.natAbs : ℕ) : ℤ) : ℚ) := (Int.cast_natCast k.natAbs).symm
      _ = ((-k : ℤ) : ℚ) := by rw [h3]
      _ = -((k : ℤ) : ℚ) := by push_cast; ring
    rw [h2]
    ring
  · rw [if_neg hk]
    simp only [List.nil_append]
    rw [if_neg (head?_natToChars_append_ne _ _ '-' rfl)]
    rw [if_neg (head?_natToChars_append_ne _ _ '+' rfl)]
    rw [parseUnsignedQ_dec _ _ (Nat.mod_lt _ (by norm_num))]
    congr 1
    rw [natCast_div_ten k.natAbs]
    have h2 : ((k.natAbs : ℕ) : ℚ) = ((k : ℤ) : ℚ) := by
      have h3 : ((k.natAbs : ℕ) : ℤ) = k := by omega
      calc ((k.natAbs : ℕ) : ℚ) = (((k.natAbs : ℕ) : ℤ) : ℚ) := (Int.cast_natCast k.natAbs).symm
      _ = ((k : ℤ) : ℚ) := by rw [h3]
    rw [h2]

theorem parseQE_fmt1 (q : ℚ) :
    parseQE (fmt1 q) = .ok ((roundHalfEven (q * 10) : ℚ) / 10) := by
  unfold fmt1
  exact parseQE_fmt1OfInt _

/-! ### Lemmas: evaluating the codec round trip -/

theorem exceptBind_ok (a : α) (f : α → Except Unit β) :
    (Except.ok a >>= f : Except Unit β) = f a := rfl

theorem exceptMap_ok (a : α) (f : α → β) :
    (Except.ok a : Except Unit α).map f = .ok (f a) := rfl

theorem listGetE_zero (a : α) (l : List α) : listGetE (a :: l) 0 = .ok a := rfl

theorem listGetE_one (a b : α) (l : List α) : listGetE (a :: b :: l) 1 = .ok b := rfl

theorem some_getD_of_truthy (o : Option Int) (h : optIntTruthy o = true) :
    some (o.getD 0) = o := by
  cases o <;> simp_all [optIntTruthy]

theorem some_getD_rat_of_truthy (o : Option ℚ) (h : optRatTruthy o = true) :
    some (o.getD 0) = o := by
  cases o <;> simp_all [optRatTruthy]

theorem some_getD_of_isSome (o : Option Int) (h : o.isSome = true) :
    some (o.getD 0) = o := by
  cases o <;> simp_all

theorem not_mem_mand_part (tag sep : Char) (x y : Int)
    (htag : tag ≠ '|') (hsep : sep ≠ '|') :
    '|' ∉ tag :: (intToChars x ++ sep :: intToChars y) := by
  intro hm
  rcases List.mem_cons.mp hm with h | h
  · exact htag h.symm
  rcases List.mem_append.mp h with h | h
  · exact not_mem_intToChars x '|' (by decide) (by decide) h
  rcases List.mem_cons.mp h with h | h
  · exact hsep h.symm
  · exact not_mem_intToChars y '|' (by decide) (by decide) h

theorem not_mem_fmt1OfInt (k : ℤ) (c : Char) (h1 : c.isDigit = false)
    (h2 : c ≠ '-') (h3 : c ≠ '.') : c ∉ fmt1.fmt1OfInt k := by
  have hd : c ∉ '.' :: [Nat.digitChar (k.natAbs % 10)] := by
    intro h
    rcases List.mem_cons.mp h with h | h
    · exact h3 h
    · simp only [List.mem_singleton] at h
      have := isDigit_digitChar (k.natAbs % 10) (Nat.mod_lt _ (by norm_num))
      rw [← h, h1] at this
      exact Bool.false_ne_true this
  unfold fmt1.fmt1OfInt
  intro hm
  simp only [List.append_assoc, List.mem_append] at hm
  rcases hm with h | h | h
  · by_cases hk : k < 0
    · rw [if_pos hk] at h
      simp only [List.mem_singleton] at h
      exact h2 h
    · rw [if_neg hk] at h
      exact List.not_mem_nil c h
  · exact not_mem_natToChars _ c h1 h
  · exact hd h

theorem pipe_not_mem_atPart (q : ℚ) : '|' ∉ '@' :: fmt1 q := by
  intro hm
  rcases List.mem_cons.mp hm with h | h
  · exact absurd h.symm (by decide)
  · exact not_mem_fmt1OfInt _ '|' (by decide) (by decide) (by decide) h

theorem compactMandatory_pipe_free (m : SheetMetadata) :
    ∀ p ∈ compactMandatory m, '|' ∉ p := by
  intro p hp
  unfold compactMandatory at hp
  simp only [List.mem_cons, List.not_mem_nil, or_false] at hp
  rcases hp with hp | hp | hp <;> subst hp
  · exact not_mem_mand_part 'p' '/' _ _ (by decide) (by decide)
  · exact not_mem_mand_part 'g' 'x' _ _ (by decide) (by decide)
  · exact not_mem_mand_part 'f' '+' _ _ (by decide) (by decide)

theorem mem_ite_singleton {c : Prop} [Decidable c] {x p : α}
    (h : p ∈ (if c then [x] else [])) : p = x := by
  by_cases hc : c
  · rw [if_pos hc] at h
    exact List.mem_singleton.mp h
  · rw [if_neg hc] at h
    exact absurd h (List.not_mem_nil p)

theorem compactOptParts_pipe_free (m : SheetMetadata) :
    ∀ p ∈ compactOptParts m, '|' ∉ p := by
  intro p hp
  unfold compactOptParts at hp
  simp only [List.append_assoc, List.mem_append] at hp
  rcases hp with hp | hp | hp
  · rw [mem_ite_singleton hp]
    exact not_mem_mand_part 'c' 'x' _ _ (by decide) (by decide)
  · rw [mem_ite_singleton hp]
    exact not_mem_mand_part 'm' 's' _ _ (by decide) (by decide)
  · rw [mem_ite_singleton hp]
    exact pipe_not_mem_atPart _

theorem parseOptParts_at (q : ℚ) (rest : List (List Char)) (f : Option ℚ)
    (cw ch mg sp : Option Int) :
    parseOptParts (('@' :: fmt1 q) :: rest) (f, cw, ch, mg, sp) =
      parseOptParts rest (some ((roundHalfEven (q * 10) : ℚ) / 10), cw, ch, mg, sp) := by
  rw [parseOptParts]
  rw [if_pos (by simp)]
  simp only [List.tail_cons]
  rw [parseQE_fmt1]
  rfl

theorem parseOptParts_c (w h : Int) (rest : List (List Char)) (f : Option ℚ)
    (cw ch mg sp : Option Int) :
    parseOptParts (('c' :: (intToChars w ++ 'x' :: intToChars h)) :: rest)
        (f, cw, ch, mg, sp) =
      parseOptParts rest (f, some w, some h, mg, sp) := by
  have hx : splitChar 'x' (intToChars w ++ 'x' :: intToChars h) =
      [intToChars w, intToChars h] := by
    rw [splitChar_append _ _ _ (not_mem_intToChars w 'x' (by decide) (by decide))]
    rw [splitChar_of_not_mem _ _ (not_mem_intToChars h 'x' (by decide) (by decide))]
  rw [parseOptParts]
  rw [if_neg (by simp)]
  rw [if_pos (by simp)]
  simp only [List.tail_cons, hx, listGetE_zero, listGetE_one, exceptBind_ok,
    parseIntE_intToChars]

theorem parseOptParts_m (mv sv : Int) (rest : List (List Char)) (f : Option ℚ)
    (cw ch mg sp : Option Int) :
    parseOptParts (('m' :: (intToChars mv ++ 's' :: intToChars sv)) :: rest)
        (f, cw, ch, mg, sp) =
      parseOptParts rest (f, cw, ch, some mv, some sv) := by
  have hs : splitChar 's' (intToChars mv ++ 's' :: intToChars sv) =
      [intToChars mv, intToChars sv] := by
    rw [splitChar_append _ _ _ (not_mem_intToChars mv 's' (by decide) (by decide))]
    rw [splitChar_of_not_mem _ _ (not_mem_intToChars sv 's' (by decide) (by decide))]
  rw [parseOptParts]
  rw [if_neg (by simp)]
  rw [if_neg (by simp)]
  rw [if_pos (by simp)]
  simp only [List.tail_cons, hs, listGetE_zero, listGetE_one, exceptBind_ok,
    parseIntE_intToChars]

theorem to_compact_eq (m : SheetMetadata) :
    m.to_compact = joinParts '|' (compactMandatory m ++ compactOptParts m) := by
  unfold SheetMetadata.to_compact compactMandatory compactOptParts
  by_cases h1 : (optIntTruthy m.cell_width = true ∧ optIntTruthy m.cell_height = true) <;>
    by_cases h2 : (m.margin.isSome = true ∧ m.spacing.isSome = true) <;>
      by_cases h3 : optRatTruthy m.fps = true <;>
        simp [h1, h2, h3, List.append_assoc]

theorem from_compact_gen (m : SheetMetadata) (opts : List (List Char))
    (hop : ∀ p ∈ opts, '|' ∉ p) :
    SheetMetadata.from_compact (joinParts '|' (compactMandatory m ++ opts)) =
      (parseOptParts opts (none, none, none, none, none)).map (fun o =>
        { page_number := m.page_number, total_pages := m.total_pages, rows := m.rows,
          cols := m.cols, frame_start := m.frame_start, frame_count := m.frame_count,
          fps := o.1, cell_width := o.2.1, cell_height := o.2.2.1,
          margin := o.2.2.2.1, spacing := o.2.2.2.2 }) := by
  have hall : ∀ p ∈ compactMandatory m ++ opts, '|' ∉ p := by
    intro p hp
    rcases List.mem_append.mp hp with hp | hp
    · exact compactMandatory_pipe_free m p hp
    · exact hop p hp
  have hsp : split2 '/' (intToChars m.page_number ++ '/' :: intToChars m.total_pages) =
      .ok (intToChars m.page_number, intToChars m.total_pages) :=
    split2_append _ _ _ (not_mem_intToChars _ '/' (by decide) (by decide))
      (not_mem_intToChars _ '/' (by decide) (by decide))
  have hsg : split2 'x' (intToChars m.rows ++ 'x' :: intToChars m.cols) =
      .ok (intToChars m.rows, intToChars m.cols) :=
    split2_append _ _ _ (not_mem_intToChars _ 'x' (by decide) (by decide))
      (not_mem_intToChars _ 'x' (by decide) (by decide))
  have hsf : split2 '+' (intToChars m.frame_start ++ '+' :: intToChars m.frame_count) =
      .ok (intToChars m.frame_start, intToChars m.frame_count) :=
    split2_append _ _ _ (not_mem_intToChars _ '+' (by decide) (by decide))
      (not_mem_intToChars _ '+' (by decide) (by decide))
  unfold SheetMetadata.from_compact
  rw [splitChar_joinParts '|' _ (by simp [compactMandatory]) hall]
  simp only [compactMandatory, List.cons_append, List.nil_append]
  unfold fromCompactParts
  simp only [listGetE_zero, listGetE_one, listGetE, List.get?, exceptBind_ok,
    List.drop_succ_cons, List.drop_zero, List.drop, hsp, hsg, hsf,
    parseIntE_intToChars]
  cases hres : parseOptParts opts (none, none, none, none, none) with
  | error e =>
    cases e
    simp [hres, Except.map]
  | ok o =>
    simp [hres, exceptBind_ok, Except.map]

theorem parseOptParts_nil (acc : CompactOptState) : parseOptParts [] acc = .ok acc := rfl

/-! ### Claims C1 and C2 -/

/-- Claim C1, counterexample: a `SheetMetadata` with `cell_width`
populated (400) but `cell_height` unset does not round-trip — the
encoder drops the `c…x…` part unless both cell dimensions are truthy,
so the populated `cell_width` comes back as `none`, contradicting the
claim that every populated field is reproduced exactly. -/
theorem c1_roundtrip_counterexample :
    SheetMetadata.from_compact (SheetMetadata.to_compact
        { page_number := 1, total_pages := 1, rows := 2, cols := 3, frame_start := 0,
          frame_count := 6, cell_width := some 400, cell_height := none }) =
      Except.ok
        { page_number := 1, total_pages := 1, rows := 2, cols := 3, frame_start := 0,
          frame_count := 6, cell_width := none } ∧
      (none : Option Int) ≠ some 400 :=
  ⟨rfl, by simp⟩

/-- Claim C1 (amended): decoding the compact encoding of any
`SheetMetadata` succeeds and reproduces `page_number`, `total_pages`,
`rows`, `cols`, `frame_start` and `frame_count` exactly; the optional
fields are reproduced exactly when they are carried by the format —
`cell_width`/`cell_height` when both are set and nonzero (otherwise
both decode to unset), `margin`/`spacing` when both are set (otherwise
both decode to unset), and `fps`, when set and nonzero, comes back as
its value rounded to one decimal place (so exactly when it is a
multiple of 0.1); an unset optional field always stays unset. -/
theorem c1_roundtrip_amended (m : SheetMetadata) :
    SheetMetadata.from_compact m.to_compact = .ok (roundTripNormalize m) := by
  rw [to_compact_eq, from_compact_gen m _ (compactOptParts_pipe_free m)]
  unfold compactOptParts roundTripNormalize
  by_cases h1 : (optIntTruthy m.cell_width = true ∧ optIntTruthy m.cell_height = true) <;>
    by_cases h2 : (m.margin.isSome = true ∧ m.spacing.isSome = true) <;>
      by_cases h3 : optRatTruthy m.fps = true <;>
        simp [h1, h2, h3, parseOptParts_c, parseOptParts_m, parseOptParts_at,
          parseOptParts_nil, Except.map, some_getD_of_truthy, some_getD_rat_of_truthy,
          some_getD_of_isSome]

/-- Claim C2: the metadata decode entry point is total — for every
decoded QR payload (and every behaviour of the JSON branch),
`_parse_metadata` returns `some` metadata or `none`, never propagating
an exception; moreover any returned metadata comes from a successful
parse, so a raised parse error always surfaces as `none`. -/
theorem c2_parse_metadata_total (from_json : List Char → Except Unit SheetMetadata)
    (data : List Char) :
    parse_metadata from_json data = none ∨
      ∃ md, parse_metadata from_json data = some md ∧
        (SheetMetadata.from_compact data = .ok md ∨ from_json data = .ok md) := by
  unfold parse_metadata
  by_cases h1 : (data.head? = some 'p' ∧ data.contains '|' = true)
  · rw [if_pos h1]
    cases hfc : SheetMetadata.from_compact data with
    | error e => exact Or.inl (by simp [exceptToOption])
    | ok md => exact Or.inr ⟨md, by simp [exceptToOption], Or.inl rfl⟩
  · rw [if_neg h1]
    by_cases h2 : data.head? = some openBraceChar
    · rw [if_pos h2]
      cases hfj : from_json data with
      | error e => exact Or.inl (by simp [exceptToOption])
      | ok md => exact Or.inr ⟨md, by simp [exceptToOption], Or.inr rfl⟩
    · rw [if_neg h2]
      exact Or.inl rfl

/-! ### Lemmas: the grid resolver -/

theorem refineCell_nil (cell : GridCell) : GridDetector.refineCell [] cell = cell := rfl

theorem applyBest_row_col (c : GridCell) (o : Option Contour) :
    (GridDetector.applyBest c o).row = c.row ∧ (GridDetector.applyBest c o).col = c.col := by
  rcases o with _ | ⟨⟨bx, by_, bw, bh⟩⟩ <;> exact ⟨rfl, rfl⟩

theorem refineCell_row_col (contours : List Contour) (c : GridCell) :
    (GridDetector.refineCell contours c).row = c.row ∧
      (GridDetector.refineCell contours c).col = c.col :=
  applyBest_row_col c _

theorem refine_fields (contoursE : Except Unit (List Contour)) (g : DetectedGrid) :
    (GridDetector.refine_grid_with_contours contoursE g).rows = g.rows ∧
    (GridDetector.refine_grid_with_contours contoursE g).cols = g.cols ∧
    (GridDetector.refine_grid_with_contours contoursE g).cell_width = g.cell_width ∧
    (GridDetector.refine_grid_with_contours contoursE g).cell_height = g.cell_height ∧
    (GridDetector.refine_grid_with_contours contoursE g).origin = g.origin ∧
    (GridDetector.refine_grid_with_contours contoursE g).spacing_x = g.spacing_x ∧
    (GridDetector.refine_grid_with_contours contoursE g).spacing_y = g.spacing_y ∧
    (GridDetector.refine_grid_with_contours contoursE g).frame_count = g.frame_count := by
  cases contoursE <;> exact ⟨rfl, rfl, rfl, rfl, rfl, rfl, rfl, rfl⟩

/-! ### Claims C3 and C4 -/

/-- Claim C3, counterexample: on a 2550×3300 page image the exact-layout
strategy with hints rows=5, cols=4, cell=400×300, margin=150, spacing=30
does not put the first cell at (150, 150) with pitch 430.  The original
page size reconstructed from these hints is 1990×1920, so the scales are
2550/1990 ≈ 1.281 and 3300/1920 ≈ 1.719 (too far apart to be averaged),
giving the first cell origin (192, 257) and horizontal pitch
512 + 38 = 550 on a contour-free scan. -/
theorem c3_exact_layout_counterexample :
    (GridDetector.detect_from_exact_layout (.ok []) 2550 3300 5 4 (some 20) 400 300 150
        30).origin = (192, 257) ∧
    (GridDetector.detect_from_exact_layout (.ok []) 2550 3300 5 4 (some 20) 400 300 150
        30).cells.head? =
      some { x := 192, y := 257, width := 512, height := 515, row := 0, col := 0 } ∧
    (GridDetector.detect_from_exact_layout (.ok []) 2550 3300 5 4 (some 20) 400 300 150
          30).cell_width +
        (GridDetector.detect_from_exact_layout (.ok []) 2550 3300 5 4 (some 20) 400 300 150
          30).spacing_x = 550 ∧
    ((192 : Int), (257 : Int)) ≠ (150, 150) ∧ (550 : Int) ≠ 430 := by
  have h5 : pyRange 5 = [0, 1, 2, 3, 4] := rfl
  have h4 : pyRange 4 = [0, 1, 2, 3] := rfl
  have hcond : ¬(|(2550 : ℚ) / 1990 - (3300 : ℚ) / 1920| < 1 / 10) := by
    rw [abs_sub_lt_iff]
    norm_num
  refine ⟨?_, ?_, ?_, by decide, by decide⟩ <;>
    simp only [GridDetector.detect_from_exact_layout, GridDetector.refine_grid_with_contours,
      scalePair, h5, h4, List.flatMap_cons, List.flatMap_nil, List.map_cons, List.map_nil,
      List.cons_append, List.nil_append, List.head?_cons, List.map_map] <;>
    rw [if_neg (by push_cast; exact hcond)] <;>
    simp only [GridDetector.refineCell, List.foldl_nil, GridDetector.applyBest] <;>
    norm_num [ratTrunc]

/-- Claim C3 (amended): on a 1990×1920 page image — the size at which
the hinted layout rows=5, cols=4, cell=400×300, margin=150, spacing=30
is at scale 1.0 — the exact-layout strategy puts the first cell (row 0,
col 0) at exactly (150, 150) and the horizontal pitch (cell width plus
horizontal spacing) is exactly 400 + 30 = 430, on a contour-free scan. -/
theorem c3_exact_layout_amended :
    (GridDetector.detect_from_exact_layout (.ok []) 1990 1920 5 4 (some 20) 400 300 150
        30).origin = (150, 150) ∧
    (GridDetector.detect_from_exact_layout (.ok []) 1990 1920 5 4 (some 20) 400 300 150
        30).cells.head? =
      some { x := 150, y := 150, width := 400, height := 300, row := 0, col := 0 } ∧
    (GridDetector.detect_from_exact_layout (.ok []) 1990 1920 5 4 (some 20) 400 300 150
          30).cell_width +
        (GridDetector.detect_from_exact_layout (.ok []) 1990 1920 5 4 (some 20) 400 300 150
          30).spacing_x = 430 := by
  have h5 : pyRange 5 = [0, 1, 2, 3, 4] := rfl
  have h4 : pyRange 4 = [0, 1, 2, 3] := rfl
  have hcond : |(1990 : ℚ) / 1990 - (1920 : ℚ) / 1920| < 1 / 10 := by
    rw [abs_sub_lt_iff]
    norm_num
  refine ⟨?_, ?_, ?_⟩ <;>
    simp only [GridDetector.detect_from_exact_layout, GridDetector.refine_grid_with_contours,
      scalePair, h5, h4, List.flatMap_cons, List.flatMap_nil, List.map_cons, List.map_nil,
      List.cons_append, List.nil_append, List.head?_cons, List.map_map] <;>
    rw [if_pos (by push_cast; exact hcond)] <;>
    simp only [GridDetector.refineCell, List.foldl_nil, GridDetector.applyBest] <;>
    norm_num [ratTrunc]

/-- Claim C4, counterexample: with layout margin=10, cols=rows=1,
cell=80×80, spacing=0 (original page 100×100) and a 200×215 scan, the
scales are 2 and 43/20 = 2.15.  Their relative difference is under 10 %
by either normalisation (3/43 resp. 3/40), yet the code does not
average them — it compares the absolute difference 0.15 against 0.1 —
so the y margin becomes int(10·2.15) = 21 instead of the
int(10·2.075) = 20 a common averaged scale would give. -/
theorem c4_scale_average_counterexample :
    ((43 : ℚ) / 20 - 2) / (43 / 20) < 1 / 10 ∧
    ((43 : ℚ) / 20 - 2) / 2 < 1 / 10 ∧
    ¬(|(200 : ℚ) / 100 - (215 : ℚ) / 100| < 1 / 10) ∧
    (GridDetector.detect_from_exact_layout (.ok []) 200 215 1 1 none 80 80 10 0).origin =
      (20, 21) ∧
    ratTrunc ((10 : ℚ) * ((2 + 43 / 20) / 2)) = 20 ∧ (21 : Int) ≠ 20 := by
  refine ⟨by norm_num, by norm_num, ?_, ?_, ?_, by decide⟩
  · rw [abs_sub_lt_iff]
    norm_num
  · have hcond : ¬(|(200 : ℚ) / 100 - (215 : ℚ) / 100| < 1 / 10) := by
      rw [abs_sub_lt_iff]
      norm_num
    simp only [GridDetector.detect_from_exact_layout, GridDetector.refine_grid_with_contours,
      scalePair]
    rw [if_neg (by push_cast; exact hcond)]
    norm_num [ratTrunc]
  · norm_num [ratTrunc]

theorem detect_exact_origin (contoursE : Except Unit (List Contour))
    (imgW imgH rows cols : Int) (fc : Option Int) (cw ch mg sp : Int) :
    (GridDetector.detect_from_exact_layout contoursE imgW imgH rows cols fc cw ch mg
        sp).origin =
      (ratTrunc ((mg : ℚ) *
          (scalePair ((imgW : ℚ) / ((mg * 2 + cols * cw + (cols - 1) * sp : Int) : ℚ))
            ((imgH : ℚ) / ((mg * 2 + rows * ch + (rows - 1) * sp : Int) : ℚ))).1),
        ratTrunc ((mg : ℚ) *
          (scalePair ((imgW : ℚ) / ((mg * 2 + cols * cw + (cols - 1) * sp : Int) : ℚ))
            ((imgH : ℚ) / ((mg * 2 + rows * ch + (rows - 1) * sp : Int) : ℚ))).2)) := by
  cases contoursE <;> rfl

/-- Claim C4 (amended): in the exact-layout strategy the two scale
factors `scale_x = image_width / original_width` and
`scale_y = image_height / original_height` are averaged into one common
scale exactly when their absolute difference is below 0.1 (the code
compares `abs(scale_x - scale_y) < 0.1`, not a 10 % relative
difference); otherwise each axis keeps its own factor.  This is
observable in the grid origin, `(int(margin·sx'), int(margin·sy'))` for
the reconciled scales.  The nonzero-dimension hypotheses reflect that
Python raises `ZeroDivisionError` on a degenerate reconstructed page. -/
theorem c4_scale_average_amended (contoursE : Except Unit (List Contour))
    (imgW imgH rows cols : Int) (fc : Option Int) (cw ch mg sp : Int)
    (how : mg * 2 + cols * cw + (cols - 1) * sp ≠ 0)
    (hoh : mg * 2 + rows * ch + (rows - 1) * sp ≠ 0) :
    (|(imgW : ℚ) / ((mg * 2 + cols * cw + (cols - 1) * sp : Int) : ℚ) -
        (imgH : ℚ) / ((mg * 2 + rows * ch + (rows - 1) * sp : Int) : ℚ)| < 1 / 10 →
      (GridDetector.detect_from_exact_layout contoursE imgW imgH rows cols fc cw ch mg
          sp).origin =
        (ratTrunc ((mg : ℚ) *
            (((imgW : ℚ) / ((mg * 2 + cols * cw + (cols - 1) * sp : Int) : ℚ) +
              (imgH : ℚ) / ((mg * 2 + rows * ch + (rows - 1) * sp : Int) : ℚ)) / 2)),
          ratTrunc ((mg : ℚ) *
            (((imgW : ℚ) / ((mg * 2 + cols * cw + (cols - 1) * sp : Int) : ℚ) +
              (imgH : ℚ) / ((mg * 2 + rows * ch + (rows - 1) * sp : Int) : ℚ)) / 2)))) ∧
    (¬(|(imgW : ℚ) / ((mg * 2 + cols * cw + (cols - 1) * sp : Int) : ℚ) -
        (imgH : ℚ) / ((mg * 2 + rows * ch + (rows - 1) * sp : Int) : ℚ)| < 1 / 10) →
      (GridDetector.detect_from_exact_layout contoursE imgW imgH rows cols fc cw ch mg
          sp).origin =
        (ratTrunc ((mg : ℚ) * ((imgW : ℚ) / ((mg * 2 + cols * cw + (cols - 1) * sp : Int) : ℚ))),
          ratTrunc ((mg : ℚ) *
            ((imgH : ℚ) / ((mg * 2 + rows * ch + (rows - 1) * sp : Int) : ℚ))))) := by
  refine ⟨fun h => ?_, fun h => ?_⟩
  · rw [detect_exact_origin]
    simp only [scalePair]
    rw [if_pos h]
  · rw [detect_exact_origin]
    simp only [scalePair]
    rw [if_neg h]

/-- Claim C4, witness: the amended theorem applied at the 200×215 scan
of the 100×100 layout (margin 10, one 80×80 cell): the absolute scale
difference 0.15 is not below 0.1, so the origin keeps per-axis scales,
(20, 21). -/
theorem c4_scale_average_witness :
    (10 * 2 + 1 * 80 + (1 - 1) * 0 : Int) ≠ 0 ∧
    (GridDetector.detect_from_exact_layout (.ok []) 200 215 1 1 none 80 80 10 0).origin =
      (ratTrunc ((10 : ℚ) * ((200 : ℚ) / ((10 * 2 + 1 * 80 + (1 - 1) * 0 : Int) : ℚ))),
        ratTrunc ((10 : ℚ) * ((215 : ℚ) / ((10 * 2 + 1 * 80 + (1 - 1) * 0 : Int) : ℚ)))) :=
  ⟨by decide,
    (c4_scale_average_amended (.ok []) 200 215 1 1 none 80 80 10 0 (by decide) (by decide)).2
      (by rw [abs_sub_lt_iff]; push_cast; norm_num)⟩

/-! ### Claims C9 and C10 -/

/-- Claim C9: `refine_grid_with_contours` never raises; when the
underlying image operations fail (any exception) it returns the input
grid itself unchanged, and otherwise it returns a new grid in which
only the individual cells' rectangles may differ — `rows`, `cols`,
`cell_width`, `cell_height`, `origin`, `spacing_x`, `spacing_y` and
`frame_count` are identical to the input's, and cell-for-cell the
`row`/`col` indices are preserved. -/
theorem c9_refine_fallback (contoursE : Except Unit (List Contour)) (grid : DetectedGrid) :
    GridDetector.refine_grid_with_contours (.error ()) grid = grid ∧
    (GridDetector.refine_grid_with_contours contoursE grid).rows = grid.rows ∧
    (GridDetector.refine_grid_with_contours contoursE grid).cols = grid.cols ∧
    (GridDetector.refine_grid_with_contours contoursE grid).cell_width = grid.cell_width ∧
    (GridDetector.refine_grid_with_contours contoursE grid).cell_height = grid.cell_height ∧
    (GridDetector.refine_grid_with_contours contoursE grid).origin = grid.origin ∧
    (GridDetector.refine_grid_with_contours contoursE grid).spacing_x = grid.spacing_x ∧
    (GridDetector.refine_grid_with_contours contoursE grid).spacing_y = grid.spacing_y ∧
    (GridDetector.refine_grid_with_contours contoursE grid).frame_count = grid.frame_count ∧
    List.Forall₂ (fun c c' => c'.row = c.row ∧ c'.col = c.col) grid.cells
      (GridDetector.refine_grid_with_contours contoursE grid).cells := by
  refine ⟨rfl, (refine_fields contoursE grid).1, (refine_fields contoursE grid).2.1,
    (refine_fields contoursE grid).2.2.1, (refine_fields contoursE grid).2.2.2.1,
    (refine_fields contoursE grid).2.2.2.2.1, (refine_fields contoursE grid).2.2.2.2.2.1,
    (refine_fields contoursE grid).2.2.2.2.2.2.1, (refine_fields contoursE grid).2.2.2.2.2.2.2,
    ?_⟩
  cases contoursE with
  | error e =>
    exact List.forall₂_same.mpr fun c _ => ⟨rfl, rfl⟩
  | ok contours =>
    show List.Forall₂ _ grid.cells (grid.cells.map (GridDetector.refineCell contours))
    rw [List.forall₂_map_right_iff]
    exact List.forall₂_same.mpr fun c _ =>
      ⟨(refineCell_row_col contours c).1, (refineCell_row_col contours c).2⟩

/-- Claim C10: `validate_continuity` on a `MultiPageAssembler` with no
pages reports the empty page set as continuous with no missing pages,
`(True, [])`, without raising. -/
theorem c10_empty_continuity :
    MultiPageAssembler.validate_continuity { pages := [] } = (true, []) := rfl

/-! ### Claim C5 -/

/-- Claim C5, counterexample: the resolver does not enforce
`rows × cols ≥ frame_count` — the exact-layout strategy invoked with
rows=1, cols=1 but frame_count=2 returns a grid carrying frame_count=2
over a single-cell grid. -/
theorem c5_frame_invariant_counterexample :
    (GridDetector.detect_from_exact_layout (.ok []) 10 10 1 1 (some 2) 10 10 0
        0).frame_count = some 2 ∧
    (GridDetector.detect_from_exact_layout (.ok []) 10 10 1 1 (some 2) 10 10 0 0).rows *
      (GridDetector.detect_from_exact_layout (.ok []) 10 10 1 1 (some 2) 10 10 0 0).cols = 1 ∧
    ¬((2 : Int) ≤ 1) :=
  ⟨rfl, rfl, by decide⟩

/-- Claim C5 (amended): the three resolver strategies pass `rows`,
`cols` and `frame_count` through to the produced grid unchanged (the
content-only strategy always leaves `frame_count` unset), so
`rows × cols ≥ frame_count` holds for every produced grid exactly when
the supplied hints already satisfy it; the resolver itself never
enforces the inequality.  The nonzero hypotheses reflect the divisions
Python performs in the first two strategies. -/
theorem c5_frame_invariant_amended (contoursE : Except Unit (List Contour))
    (content_bounds : Option (Int × Int × Int × Int)) (o : ContentOracle)
    (imgW imgH rows cols : Int) (fc : Option Int) (cw ch mg sp : Int)
    (mpct spct : ℚ)
    (hfc : ∀ n, fc = some n → n ≤ rows * cols)
    (how : mg * 2 + cols * cw + (cols - 1) * sp ≠ 0)
    (hoh : mg * 2 + rows * ch + (rows - 1) * sp ≠ 0)
    (hrows : rows ≠ 0) (hcols : cols ≠ 0) :
    (∀ n, (GridDetector.detect_from_exact_layout contoursE imgW imgH rows cols fc cw ch mg
        sp).frame_count = some n →
      n ≤ (GridDetector.detect_from_exact_layout contoursE imgW imgH rows cols fc cw ch mg
            sp).rows *
          (GridDetector.detect_from_exact_layout contoursE imgW imgH rows cols fc cw ch mg
            sp).cols) ∧
    (∀ n, (GridDetector.detect_from_metadata contoursE content_bounds imgW imgH rows cols fc
        mpct spct).frame_count = some n →
      n ≤ (GridDetector.detect_from_metadata contoursE content_bounds imgW imgH rows cols fc
            mpct spct).rows *
          (GridDetector.detect_from_metadata contoursE content_bounds imgW imgH rows cols fc
            mpct spct).cols) ∧
    (∀ n, (GridDetector.detect_by_content o imgW imgH).frame_count = some n →
      n ≤ (GridDetector.detect_by_content o imgW imgH).rows *
          (GridDetector.detect_by_content o imgW imgH).cols) := by
  refine ⟨?_, ?_, ?_⟩
  · intro n hn
    have h1 : (GridDetector.detect_from_exact_layout contoursE imgW imgH rows cols fc cw ch mg
        sp).frame_count = fc := by cases contoursE <;> rfl
    have h2 : (GridDetector.detect_from_exact_layout contoursE imgW imgH rows cols fc cw ch mg
        sp).rows = rows := by cases contoursE <;> rfl
    have h3 : (GridDetector.detect_from_exact_layout contoursE imgW imgH rows cols fc cw ch mg
        sp).cols = cols := by cases contoursE <;> rfl
    rw [h1] at hn
    rw [h2, h3]
    exact hfc n hn
  · intro n hn
    have h1 : (GridDetector.detect_from_metadata contoursE content_bounds imgW imgH rows cols
        fc mpct spct).frame_count = fc := by cases contoursE <;> rfl
    have h2 : (GridDetector.detect_from_metadata contoursE content_bounds imgW imgH rows cols
        fc mpct spct).rows = rows := by cases contoursE <;> rfl
    have h3 : (GridDetector.detect_from_metadata contoursE content_bounds imgW imgH rows cols
        fc mpct spct).cols = cols := by cases contoursE <;> rfl
    rw [h1] at hn
    rw [h2, h3]
    exact hfc n hn
  · intro n hn
    have h1 : (GridDetector.detect_by_content o imgW imgH).frame_count = none := rfl
    rw [h1] at hn
    cases hn

/-- Claim C5, witness: the amended theorem at a 1×1 grid with
frame_count = 1 ≤ 1: the produced grid's frame count respects the
bound. -/
theorem c5_frame_invariant_witness :
    (GridDetector.detect_from_exact_layout (.ok []) 10 10 1 1 (some 1) 10 10 0
        0).frame_count = some 1 ∧
    (1 : Int) ≤ (GridDetector.detect_from_exact_layout (.ok []) 10 10 1 1 (some 1) 10 10 0
          0).rows *
        (GridDetector.detect_from_exact_layout (.ok []) 10 10 1 1 (some 1) 10 10 0 0).cols :=
  ⟨rfl,
    (c5_frame_invariant_amended (.ok []) none ⟨none, none, (0, 0, 0, 0)⟩ 10 10 1 1 (some 1)
        10 10 0 0 0 0 (fun n hn => by injection hn with h; omega) (by decide) (by decide)
        (by decide) (by decide)).1 1 rfl⟩

/-! ### Claim C7 -/

/-- Claim C7, counterexample: a cell lying entirely outside the source
image at negative coordinates (x = y = −50, 20×20, so x+w = −30 ≤ 0)
does not produce the fixed 10×10 placeholder: the clamped rectangle is
repaired to the 1×1 crop (0, 0, 1, 1) instead. -/
theorem c7_outside_cell_counterexample :
    FrameExtractor.extract_cell 0 100 100
        { x := -50, y := -50, width := 20, height := 20, row := 0, col := 0 } =
      .crop 0 0 1 1 ∧
    (-50 : Int) + 20 ≤ 0 ∧ (-50 : Int) + 20 ≤ 0 ∧
    ExtractResult.crop 0 0 1 1 ≠ .placeholder :=
  ⟨rfl, by decide, by decide, by decide⟩

/-- Claim C7 (amended): extracting any cell never fails — when the
(border-cropped) cell starts at or beyond the right or bottom image
edge the fixed 10×10 placeholder is returned, and otherwise the result
is a crop whose box is non-degenerate and lies inside the image (so the
underlying `Image.crop` is well defined); a cell entirely outside on
the negative side falls in the second case and yields a clamped crop of
one-pixel extent rather than the placeholder. -/
theorem c7_extract_cell_safety (border_crop imgW imgH : Int) (cell : GridCell)
    (hW : 0 < imgW) (hH : 0 < imgH) :
    ((max 0 (cell.x + (if border_crop > 0 then border_crop else 0)) ≥ imgW ∨
        max 0 (cell.y + (if border_crop > 0 then border_crop else 0)) ≥ imgH) →
      FrameExtractor.extract_cell border_crop imgW imgH cell = .placeholder) ∧
    (max 0 (cell.x + (if border_crop > 0 then border_crop else 0)) < imgW →
      max 0 (cell.y + (if border_crop > 0 then border_crop else 0)) < imgH →
      ∃ l t r b, FrameExtractor.extract_cell border_crop imgW imgH cell = .crop l t r b ∧
        0 ≤ l ∧ l < r ∧ r ≤ imgW ∧ 0 ≤ t ∧ t < b ∧ b ≤ imgH) := by
  unfold FrameExtractor.extract_cell GridCell.bounds
  by_cases hbc : border_crop > 0 <;>
    simp only [if_pos, if_neg, hbc, ite_true, ite_false] <;>
    constructor <;>
    · first
      | (intro h
         split_ifs with h1 h2 h3 <;> first | rfl | omega)
      | (intro h1 h2
         split_ifs with h3 h4 h5 <;>
           first
           | refine ⟨_, _, _, _, rfl, by omega, by omega, by omega, by omega, by omega,
               by omega⟩
           | omega)

/-- Claim C7, witness: a cell starting beyond the right edge of a
100×100 image gets the placeholder. -/
theorem c7_extract_cell_witness :
    (0 : Int) < 100 ∧
    FrameExtractor.extract_cell 0 100 100
        { x := 120, y := 10, width := 20, height := 20, row := 0, col := 0 } = .placeholder :=
  ⟨by decide,
    (c7_extract_cell_safety 0 100 100
        { x := 120, y := 10, width := 20, height := 20, row := 0, col := 0 } (by decide)
        (by decide)).1 (Or.inl (by decide))⟩

/-! ### Claim C8 -/

theorem foldl_writes_replicate {α : Type} (n : ℕ) (frames acc : List α) :
    frames.foldl (fun a f => a ++ List.replicate n f) acc =
      acc ++ frames.flatMap (fun f => List.replicate n f) := by
  induction frames generalizing acc with
  | nil => simp
  | cons f fs ih => simp [ih, List.append_assoc]

theorem foldl_writes_single {α : Type} (frames acc : List α) :
    frames.foldl (fun a f => a ++ [f]) acc = acc ++ frames := by
  induction frames generalizing acc with
  | nil => simp
  | cons f fs ih => simp [ih]

/-- Claim C8, counterexample: with fps 24 and frame duration 0.9 the
export loop writes each frame int(24·0.9) = int(21.6) = 21 times —
truncation — whereas round(21.6) = 22; the claimed
`round(fps·frame_duration)` repetition count is wrong. -/
theorem c8_repeat_count_counterexample :
    VideoAssembler.exportWrites { frame_duration := some (9 / 10) } (some 24) [(0 : Nat)] =
      List.replicate 21 0 ∧
    roundHalfEven ((24 : ℚ) * (9 / 10)) = 22 ∧ (21 : ℕ) ≠ 22 := by
  refine ⟨?_, ?_, by decide⟩
  · simp only [VideoAssembler.exportWrites, VideoAssembler.resolveFps, optRatTruthy,
      List.foldl_cons, List.foldl_nil]
    norm_num [ratTrunc]
    decide
  · simp only [roundHalfEven]
    norm_num

/-- Claim C8 (amended): with a truthy frame duration set (and truthy
fps) each frame is written `max(1, int(fps · frame_duration))` times —
truncation toward zero with a minimum of one, not rounding; with no
frame duration set each frame is written exactly once and the writer
frame rate equals fps, so each frame is held for 1/fps seconds. -/
theorem c8_export_writes_amended {α : Type} (settings : VideoSettings) (fpsArg : Option ℚ)
    (frames : List α) :
    (optRatTruthy settings.frame_duration = true →
      VideoAssembler.resolveFps fpsArg settings ≠ 0 →
      VideoAssembler.exportWrites settings fpsArg frames =
        frames.flatMap (fun f => List.replicate
          (max 1 (ratTrunc (VideoAssembler.resolveFps fpsArg settings *
            settings.frame_duration.getD 0))).toNat f)) ∧
    (optRatTruthy settings.frame_duration = false →
      VideoAssembler.exportWrites settings fpsArg frames = frames ∧
      VideoAssembler.effectiveFps settings (VideoAssembler.resolveFps fpsArg settings) =
        VideoAssembler.resolveFps fpsArg settings) := by
  constructor
  · intro h1 h2
    unfold VideoAssembler.exportWrites
    simp only [h1, h2, ne_eq, not_false_eq_true, and_self, if_true, true_and, ite_true]
    rw [foldl_writes_replicate]
    simp
  · intro h1
    constructor
    · unfold VideoAssembler.exportWrites
      simp only [h1, Bool.false_eq_true, false_and, if_false, ite_false]
      rw [foldl_writes_single]
      simp
    · unfold VideoAssembler.effectiveFps
      rw [if_neg (by simp [h1])]

/-- Claim C8, witness: with frame duration 2 s at 24 fps each frame is
written max(1, int(48)) = 48 times. -/
theorem c8_export_writes_witness :
    optRatTruthy ({ frame_duration := some 2 : VideoSettings }).frame_duration = true ∧
    VideoAssembler.exportWrites { frame_duration := some 2 } (some 24) [(0 : Nat)] =
      [(0 : Nat)].flatMap (fun f => List.replicate
        (max 1 (ratTrunc (VideoAssembler.resolveFps (some 24) { frame_duration := some 2 } *
          (({ frame_duration := some 2 : VideoSettings }).frame_duration.getD 0)))).toNat f) :=
  ⟨by decide,
    (c8_export_writes_amended { frame_duration := some 2 } (some 24) [(0 : Nat)]).1
      (by decide) (by decide)⟩

/-! ### Claim C6 -/

theorem allPairs_eq_product (rows cols : Int) :
    allPairs rows cols = (pyRange rows) ×ˢ (pyRange cols) := rfl

theorem pyRange_nodup (n : Int) : (pyRange n).Nodup := by
  unfold pyRange
  refine (List.nodup_range _).map ?_
  intro a b h
  exact Int.ofNat.inj h

theorem allPairs_nodup (rows cols : Int) : (allPairs rows cols).Nodup := by
  rw [allPairs_eq_product]
  exact (pyRange_nodup rows).product (pyRange_nodup cols)

theorem allPairs_length (rows cols : Int) :
    (allPairs rows cols).length = rows.toNat * cols.toNat := by
  rw [allPairs_eq_product, List.length_product]
  simp [pyRange]

/-- Claim C6, counterexample: a single-cell grid covering its one
`(row, col)` slot whose `frame_count` is the (representable) value −1:
Python's `ordered[:-1]` drops the last element, so `get_cells_in_order`
has length 0, while `min(rows·cols, frame_count) = min(1, −1) = −1`;
the claimed length equation fails for a negative frame count. -/
theorem c6_reading_order_counterexample :
    (DetectedGrid.get_cells_in_order
        { cells := [{ x := 0, y := 0, width := 5, height := 5, row := 0, col := 0 }],
          rows := 1, cols := 1, cell_width := 5, cell_height := 5, origin := (0, 0),
          spacing_x := 0, spacing_y := 0, frame_count := some (-1) }).length = 0 ∧
    (({ cells := [{ x := 0, y := 0, width := 5, height := 5, row := 0, col := 0 }],
          rows := 1, cols := 1, cell_width := 5, cell_height := 5, origin := (0, 0),
          spacing_x := 0, spacing_y := 0,
          frame_count := some (-1) } : DetectedGrid).cells.map
        (fun c => (c.row, c.col))).Perm (allPairs 1 1) ∧
    min ((1 : Int) * 1) (-1) = -1 ∧ (0 : Int) ≠ -1 := by
  refine ⟨rfl, by decide, by decide, by decide⟩

theorem pySlice_sublist {α : Type} (k : Int) (l : List α) : (pySlice k l).Sublist l := by
  unfold pySlice
  split_ifs <;> exact List.take_sublist _ _

/-- Claim C6 (amended): for every grid with nonnegative `rows`, `cols`
whose cells cover each `(row, col)` pair of the `rows × cols` slots
exactly once, `get_cells_in_order()` is sorted strictly by row and then
column — whatever `frame_count` holds, since slicing a sorted list
leaves it sorted — and whenever `frame_count` is set to a nonnegative
value its length is `min(rows·cols, frame_count)`. -/
theorem c6_reading_order_amended (g : DetectedGrid)
    (hrows : 0 ≤ g.rows) (hcols : 0 ≤ g.cols)
    (hcov : (g.cells.map (fun c => (c.row, c.col))).Perm (allPairs g.rows g.cols)) :
    g.get_cells_in_order.Pairwise cellLT ∧
      ∀ fc : Int, g.frame_count = some fc → 0 ≤ fc →
        (g.get_cells_in_order.length : Int) = min (g.rows * g.cols) fc := by
  have hperm : List.Perm (List.insertionSort cellLE g.cells) g.cells :=
    List.perm_insertionSort cellLE g.cells
  have hsorted : (List.insertionSort cellLE g.cells).Pairwise cellLE :=
    List.sorted_insertionSort cellLE g.cells
  have hlen : (List.insertionSort cellLE g.cells).length = g.rows.toNat * g.cols.toNat := by
    rw [hperm.length_eq, ← List.length_map g.cells (fun c => (c.row, c.col)), hcov.length_eq,
      allPairs_length]
  have hkeys : ((List.insertionSort cellLE g.cells).map (fun c => (c.row, c.col))).Nodup := by
    have h1 : List.Perm ((List.insertionSort cellLE g.cells).map (fun c => (c.row, c.col)))
        (g.cells.map (fun c => (c.row, c.col))) := hperm.map _
    exact ((h1.trans hcov).nodup_iff).mpr (allPairs_nodup g.rows g.cols)
  have hstrict : (List.insertionSort cellLE g.cells).Pairwise cellLT := by
    have h2 := List.pairwise_map.mp hkeys
    refine (hsorted.and h2).imp ?_
    intro a b hab
    have h3 : ¬(a.row = b.row ∧ a.col = b.col) := by
      intro hc
      exact hab.2 (by rw [hc.1, hc.2])
    rcases hab.1 with h4 | h4
    · exact Or.inl h4
    · exact Or.inr ⟨h4.1, by omega⟩
  constructor
  · unfold DetectedGrid.get_cells_in_order
    cases hf : g.frame_count with
    | none => exact hstrict
    | some fc => exact hstrict.sublist (pySlice_sublist fc _)
  · intro fc hfcs hfc0
    unfold DetectedGrid.get_cells_in_order
    rw [hfcs]
    show ((pySlice fc (List.insertionSort cellLE g.cells)).length : Int) =
      min (g.rows * g.cols) fc
    unfold pySlice
    rw [if_pos hfc0]
    rw [List.length_take, hlen, Nat.cast_min, Nat.cast_mul, Int.toNat_of_nonneg hfc0,
      Int.toNat_of_nonneg hrows, Int.toNat_of_nonneg hcols, min_comm]

/-- Claim C6, witness: a 1×2 grid listed out of reading order with
frame_count 1: the ordered list is strictly sorted and capped at
min(2, 1) = 1 cell. -/
theorem c6_reading_order_witness :
    (0 : Int) ≤ 1 ∧ (0 : Int) ≤ 2 ∧
    ({ cells := [{ x := 6, y := 0, width := 5, height := 5, row := 0, col := 1 },
          { x := 0, y := 0, width := 5, height := 5, row := 0, col := 0 }],
        rows := 1, cols := 2, cell_width := 5, cell_height := 5, origin := (0, 0),
        spacing_x := 1, spacing_y := 0,
        frame_count := some 1 } : DetectedGrid).get_cells_in_order.Pairwise cellLT ∧
    ((({ cells := [{ x := 6, y := 0, width := 5, height := 5, row := 0, col := 1 },
            { x := 0, y := 0, width := 5, height := 5, row := 0, col := 0 }],
          rows := 1, cols := 2, cell_width := 5, cell_height := 5, origin := (0, 0),
          spacing_x := 1, spacing_y := 0,
          frame_count := some 1 } : DetectedGrid).get_cells_in_order.length : Int) =
        min ((1 : Int) * 2) 1) :=
  ⟨by decide, by decide,
    (c6_reading_order_amended
        { cells := [{ x := 6, y := 0, width := 5, height := 5, row := 0, col := 1 },
            { x := 0, y := 0, width := 5, height := 5, row := 0, col := 0 }],
          rows := 1, cols := 2, cell_width := 5, cell_height := 5, origin := (0, 0),
          spacing_x := 1, spacing_y := 0, frame_count := some 1 }
        (by decide) (by decide) (by decide)).1,
    (c6_reading_order_amended
        { cells := [{ x := 6, y := 0, width := 5, height := 5, row := 0, col := 1 },
            { x := 0, y := 0, width := 5, height := 5, row := 0, col := 0 }],
          rows := 1, cols := 2, cell_width := 5, cell_height := 5, origin := (0, 0),
          spacing_x := 1, spacing_y := 0, frame_count := some 1 }
        (by decide) (by decide) (by decide)).2 1 rfl (by decide)⟩
